import Mathlib

/-!
# Verification of the BlissFull server-status prober (`server.py`)

Shallow embedding of the core component of the repository: the Minecraft
status prober — varint codec (`_write_varint` / `_read_varint`), the probe
round trip (`ping_minecraft`), the background refresh loop
(`_refresh_status`) and the status cache read out by `get_status`.

Conventions of the embedding:
* Python byte strings become `List Nat` (each entry is one byte value).
* Python exceptions become `Except PyErr`; the constructor records which
  Python exception class the source raises at that point.
* A blocking stream is modelled by the list of bytes the peer will deliver
  before closing the connection; `read(1)` on an exhausted list models the
  empty read that `_read_varint` turns into `EOFError`.
* Machine integers are `Nat` (Python ints are unbounded; all values in the
  prober are non-negative, except where the `Int` model below is used to
  study the negative case explicitly).
-/

/-- The Python exception classes that the prober's code paths can raise. -/
inductive PyErr where
  /-- `EOFError("Connection closed")`, raised by `_read_varint` on an empty read. -/
  | eofError
  /-- `ValueError("VarInt too large")`, raised by `_read_varint` when `shift >= 35`. -/
  | valueError
  /-- `UnicodeDecodeError` from `bytes.decode()`. -/
  | unicodeError
  /-- `json.JSONDecodeError` from `json.loads`. -/
  | jsonError
  /-- `AttributeError` from calling `.get` on a non-dict value. -/
  | attributeError
deriving DecidableEq

/-- `_write_varint` (server.py lines 46-54): 7-bits-per-byte little-endian
varint encoding.  Each loop iteration emits `value & 0x7F`, sets the
continuation bit `0x80` when the shifted value is still nonzero, and stops
once it is zero. -/
def write_varint (value : Nat) : List Nat :=
  if h : value >>> 7 ≠ 0 then
    ((value &&& 0x7F) ||| 0x80) :: write_varint (value >>> 7)
  else
    [value &&& 0x7F]
termination_by value
decreasing_by
  have h1 : value / 2 ^ 7 ≠ 0 := by simpa [Nat.shiftRight_eq_div_pow] using h
  have h2 : 0 < value := by
    rcases Nat.eq_zero_or_pos value with h0 | h0
    · subst h0; simp at h1
    · exact h0
  simpa [Nat.shiftRight_eq_div_pow] using Nat.div_lt_self h2 (by norm_num)

/-- Loop body of `_read_varint` (server.py lines 56-65), with the loop state
`result`/`shift` made explicit.  Reads one byte per iteration; an exhausted
stream raises `EOFError`; a byte without the continuation bit terminates and
returns the accumulated result; after consuming a fifth continuation byte the
shift reaches 35 and `ValueError("VarInt too large")` is raised. -/
def read_varint_aux : List Nat → Nat → Nat → Except PyErr (Nat × List Nat)
  | [], _, _ => .error .eofError
  | byte :: rest, result, shift =>
    let result' := result ||| ((byte &&& 0x7F) <<< shift)
    if byte &&& 0x80 = 0 then .ok (result', rest)
    else if shift + 7 ≥ 35 then .error .valueError
    else read_varint_aux rest result' (shift + 7)

/-- `_read_varint` (server.py lines 56-65): decode one varint from the front
of the stream, returning the value and the unread remainder of the stream. -/
def read_varint (s : List Nat) : Except PyErr (Nat × List Nat) :=
  read_varint_aux s 0 0

/-- Fuelled model of `_write_varint` run on an arbitrary Python `int`,
including negative ones.  Python's `& 0x7F` on a negative int is its value
modulo 128 (`Int.emod`) and `>>= 7` is floor division by 128 (`Int.ediv`,
which agrees with floor division for a positive divisor).  `none` means the
loop has not terminated within `fuel` iterations. -/
def write_varint_int : Nat → Int → Option (List Nat)
  | 0, _ => none
  | fuel + 1, value =>
    let b := (Int.emod value 128).toNat
    let v := Int.ediv value 128
    if v ≠ 0 then (write_varint_int fuel v).map (fun out => (b ||| 0x80) :: out)
    else some [b]

/-! ## Arithmetic facts about the bit operations used by the codec -/

theorem and_127_eq_mod (b : Nat) : b &&& 127 = b % 128 := by
  have h : (127 : Nat) = 2 ^ 7 - 1 := by norm_num
  rw [h, Nat.and_pow_two_sub_one_eq_mod]

theorem and_128_eq_zero {b : Nat} (h : b < 128) : b &&& 128 = 0 := by
  have h7 : (128 : Nat) = 2 ^ 7 := by norm_num
  rw [h7, Nat.and_two_pow]
  rw [Nat.testBit_eq_false_of_lt (by simpa [h7] using h)]
  simp

theorem or_128_and_128 (x : Nat) : (x ||| 128) &&& 128 ≠ 0 := by
  have h7 : (128 : Nat) = 2 ^ 7 := by norm_num
  rw [h7, Nat.and_two_pow]
  have hx : (x ||| 2 ^ 7).testBit 7 = true := by
    rw [Nat.testBit_or]
    have h2 : Nat.testBit (2 ^ 7) 7 = true := by decide
    rw [h2, Bool.or_true]
  rw [hx]
  simp

theorem or_128_and_127 {x : Nat} (hx : x < 128) : (x ||| 128) &&& 127 = x := by
  rw [Nat.and_distrib_right]
  have h1 : (128 : Nat) &&& 127 = 0 := by decide
  have h2 : x &&& 127 = x := by
    rw [and_127_eq_mod]
    exact Nat.mod_eq_of_lt hx
  rw [h1, h2]
  simp

/-- Under the invariant that the accumulator stays below `2 ^ shift`, the
bitwise-or performed by the decode loop is plain addition. -/
theorem or_shift_eq_add {res n : Nat} (h : res < 2 ^ n) (a : Nat) :
    res ||| (a <<< n) = res + a * 2 ^ n := by
  calc res ||| (a <<< n) = a * 2 ^ n ||| res := by rw [Nat.shiftLeft_eq, Nat.lor_comm]
    _ = 2 ^ n * a ||| res := by rw [Nat.mul_comm]
    _ = 2 ^ n * a + res := (Nat.mul_add_lt_is_or h a).symm
    _ = res + a * 2 ^ n := by rw [Nat.add_comm, Nat.mul_comm]

theorem shiftRight7_eq_zero_iff {v : Nat} : v >>> 7 = 0 ↔ v < 128 := by
  rw [Nat.shiftRight_eq_div_pow]
  constructor
  · intro h
    simpa using (Nat.div_eq_zero_iff (by norm_num : 0 < 2 ^ 7)).mp h
  · intro h
    exact Nat.div_eq_of_lt (by simpa using h)

/-! ## Round trip: decoding an encoding -/

theorem read_write_aux (v : Nat) : ∀ (shift result : Nat) (rest : List Nat),
    shift % 7 = 0 → shift ≤ 28 → v < 2 ^ (35 - shift) → result < 2 ^ shift →
    read_varint_aux (write_varint v ++ rest) result shift =
      .ok (result + v * 2 ^ shift, rest) := by
  induction v using Nat.strong_induction_on with
  | _ v ih =>
    intro shift result rest h7 h28 hv hres
    rw [write_varint]
    by_cases hz : v >>> 7 ≠ 0
    · -- continuation case: v ≥ 128
      have hv128 : 128 ≤ v := by
        rcases Nat.lt_or_ge v 128 with h | h
        · exact absurd (shiftRight7_eq_zero_iff.mpr h) hz
        · exact h
      have hlow : v &&& 127 < 128 := by
        rw [and_127_eq_mod]; exact Nat.mod_lt _ (by norm_num)
      have hshift : shift < 28 := by
        have hpow : (2 : Nat) ^ 7 < 2 ^ (35 - shift) :=
          lt_of_le_of_lt (by simpa using hv128) hv
        have h7lt : 7 < 35 - shift :=
          (Nat.pow_lt_pow_iff_right (by norm_num : 1 < 2)).mp hpow
        omega
      have hshift21 : shift ≤ 21 := by omega
      rw [dif_pos hz, List.cons_append]
      rw [read_varint_aux]
      simp only [if_neg (or_128_and_128 (v &&& 0x7F)), if_neg (by omega : ¬ shift + 7 ≥ 35)]
      have hbyte : ((v &&& 0x7F) ||| 0x80) &&& 0x7F = v % 128 := by
        rw [or_128_and_127 hlow, and_127_eq_mod]
      rw [hbyte, or_shift_eq_add hres]
      -- recursive call via the induction hypothesis
      have hrec := ih (v >>> 7)
        (by
          rw [Nat.shiftRight_eq_div_pow]
          exact Nat.div_lt_self (by omega) (by norm_num))
        (shift + 7) (result + v % 128 * 2 ^ shift) rest
        (by omega) (by omega)
        (by
          rw [Nat.shiftRight_eq_div_pow]
          have : (2 : Nat) ^ (35 - (shift + 7)) * 2 ^ 7 = 2 ^ (35 - shift) := by
            rw [← pow_add]; congr 1; omega
          rw [Nat.div_lt_iff_lt_mul (by norm_num : 0 < 2 ^ 7)]
          calc v < 2 ^ (35 - shift) := hv
            _ = 2 ^ (35 - (shift + 7)) * 2 ^ 7 := this.symm)
        (by
          have hmle : v % 128 ≤ 127 := by omega
          calc result + v % 128 * 2 ^ shift
              < 2 ^ shift + 127 * 2 ^ shift := by
                have := Nat.mul_le_mul_right (2 ^ shift) hmle
                omega
            _ = 2 ^ (shift + 7) := by rw [pow_add]; ring)
      rw [hrec]
      congr 2
      have hsplit : v % 128 + 128 * (v / 128) = v := Nat.mod_add_div v 128
      have hdiv : v >>> 7 = v / 128 := by
        rw [Nat.shiftRight_eq_div_pow]
      rw [hdiv]
      have : v % 128 * 2 ^ shift + v / 128 * 2 ^ (shift + 7) =
          (v % 128 + 128 * (v / 128)) * 2 ^ shift := by
        rw [pow_add]; ring
      calc result + v % 128 * 2 ^ shift + v / 128 * 2 ^ (shift + 7)
          = result + (v % 128 + 128 * (v / 128)) * 2 ^ shift := by rw [Nat.add_assoc, this]
        _ = result + v * 2 ^ shift := by rw [hsplit]
    · -- terminal case: v < 128, a single byte without the continuation bit
      push_neg at hz
      have hvlt : v < 128 := shiftRight7_eq_zero_iff.mp hz
      rw [dif_neg (by simpa using hz), List.singleton_append]
      rw [read_varint_aux]
      have hb : v &&& 0x7F = v := by
        rw [and_127_eq_mod]; exact Nat.mod_eq_of_lt hvlt
      simp only [hb, if_pos (and_128_eq_zero hvlt)]
      rw [or_shift_eq_add hres]

theorem read_write {v : Nat} (rest : List Nat) (h : v < 2 ^ 35) :
    read_varint (write_varint v ++ rest) = .ok (v, rest) := by
  have := read_write_aux v 0 0 rest (by norm_num) (by norm_num) (by simpa using h)
    (by norm_num)
  simpa using this

/-- C1: for every non-negative integer in the protocol's representable 32-bit
range, `_read_varint` applied to a stream that starts with `_write_varint v`
returns `v` and consumes exactly the encoding. -/
theorem c1_varint_roundtrip (v : Nat) (rest : List Nat) (h : v < 2 ^ 32) :
    read_varint (write_varint v ++ rest) = .ok (v, rest) :=
  read_write rest (lt_trans h (by norm_num))

/-- C1 witness: the round trip evaluated at the concrete value 4000000000. -/
theorem c1_varint_roundtrip_witness :
    read_varint (write_varint 4000000000 ++ []) = .ok (4000000000, []) :=
  c1_varint_roundtrip 4000000000 [] (by norm_num)

/-! ## C3: bound on decoded values -/

theorem read_varint_aux_lt : ∀ (s : List Nat) (result shift v : Nat) (rest : List Nat),
    shift % 7 = 0 → shift ≤ 28 → result < 2 ^ (shift + 7) →
    read_varint_aux s result shift = .ok (v, rest) → v < 2 ^ 35 := by
  intro s
  induction s with
  | nil => intro result shift v rest _ _ _ h; simp [read_varint_aux] at h
  | cons byte tail ih =>
    intro result shift v rest h7 h28 hres h
    rw [read_varint_aux] at h
    have hb : byte &&& 0x7F < 128 := by
      rw [and_127_eq_mod]; exact Nat.mod_lt _ (by norm_num)
    have hsh : (byte &&& 0x7F) <<< shift < 2 ^ (shift + 7) := by
      rw [Nat.shiftLeft_eq]
      calc (byte &&& 0x7F) * 2 ^ shift < 128 * 2 ^ shift :=
            (Nat.mul_lt_mul_right (Nat.two_pow_pos shift)).mpr hb
        _ = 2 ^ (shift + 7) := by rw [pow_add]; ring
    have hres' : result ||| ((byte &&& 0x7F) <<< shift) < 2 ^ (shift + 7) :=
      Nat.or_lt_two_pow hres hsh
    by_cases hcont : byte &&& 0x80 = 0
    · rw [if_pos hcont] at h
      have hv : v = result ||| ((byte &&& 0x7F) <<< shift) := by
        have := h
        simp only [Except.ok.injEq, Prod.mk.injEq] at this
        exact this.1.symm
      rw [hv]
      calc result ||| ((byte &&& 0x7F) <<< shift) < 2 ^ (shift + 7) := hres'
        _ ≤ 2 ^ 35 := Nat.pow_le_pow_right (by norm_num) (by omega)
    · rw [if_neg hcont] at h
      by_cases hstop : shift + 7 ≥ 35
      · rw [if_pos hstop] at h; simp at h
      · rw [if_neg hstop] at h
        exact ih _ (shift + 7) v rest (by omega) (by omega)
          (lt_of_lt_of_le hres' (Nat.pow_le_pow_right (by norm_num) (by omega))) h

/-- C3 amended: whenever `_read_varint` returns successfully the value fits in
35 bits (5 payload bytes × 7 bits), not 32: the shift bound of the source only
limits the encoding to five bytes. -/
theorem c3_read_varint_lt (s : List Nat) (v : Nat) (rest : List Nat)
    (h : read_varint s = .ok (v, rest)) : v < 2 ^ 35 :=
  read_varint_aux_lt s 0 0 v rest (by norm_num) (by norm_num) (by norm_num) h

/-- C3 witness: the bound instantiated on the concrete stream `[5]`. -/
theorem c3_read_varint_lt_witness :
    read_varint [5] = .ok (5, []) ∧ (5 : Nat) < 2 ^ 35 :=
  ⟨by rfl, c3_read_varint_lt [5] 5 [] (by rfl)⟩

/-- C3 counterexample: the five-byte stream `80 80 80 80 10` decodes
successfully to `2 ^ 32`, which does not fit in 32 bits, refuting the claimed
`< 2 ^ 32` bound. -/
theorem c3_counterexample :
    read_varint [0x80, 0x80, 0x80, 0x80, 0x10] = .ok (4294967296, []) ∧
      ¬ (4294967296 : Nat) < 2 ^ 32 :=
  ⟨by rfl, by norm_num⟩

/-! ## C4: five continuation bytes are rejected -/

/-- C4: any stream whose first five bytes all carry the continuation bit
`0x80` makes `_read_varint` fail with `ValueError("VarInt too large")` — the
`MalformedVarint` failure — after consuming those five bytes, regardless of
what follows. -/
theorem c4_varint_too_large (b0 b1 b2 b3 b4 : Nat) (rest : List Nat)
    (h0 : b0 &&& 0x80 ≠ 0) (h1 : b1 &&& 0x80 ≠ 0) (h2 : b2 &&& 0x80 ≠ 0)
    (h3 : b3 &&& 0x80 ≠ 0) (h4 : b4 &&& 0x80 ≠ 0) :
    read_varint (b0 :: b1 :: b2 :: b3 :: b4 :: rest) = .error .valueError := by
  rw [read_varint]
  rw [read_varint_aux]; rw [if_neg h0, if_neg (by omega : ¬ (0 : Nat) + 7 ≥ 35)]
  rw [read_varint_aux]; rw [if_neg h1, if_neg (by omega : ¬ (0 : Nat) + 7 + 7 ≥ 35)]
  rw [read_varint_aux]; rw [if_neg h2, if_neg (by omega : ¬ (0 : Nat) + 7 + 7 + 7 ≥ 35)]
  rw [read_varint_aux]; rw [if_neg h3, if_neg (by omega : ¬ (0 : Nat) + 7 + 7 + 7 + 7 ≥ 35)]
  rw [read_varint_aux]; rw [if_neg h4, if_pos (by omega : (0 : Nat) + 7 + 7 + 7 + 7 + 7 ≥ 35)]

/-- C4 witness: five bare continuation bytes are rejected. -/
theorem c4_varint_too_large_witness :
    read_varint [0x80, 0x80, 0x80, 0x80, 0x80] = .error .valueError :=
  c4_varint_too_large 0x80 0x80 0x80 0x80 0x80 []
    (by decide) (by decide) (by decide) (by decide) (by decide)

/-! ## C10: the encoder is total on naturals and never empty -/

/-- C10: `_write_varint` terminates on every non-negative integer (the Lean
function is total by the termination argument of its definition) and always
produces at least one byte; encoding 0 yields the single byte `0x00`.  The
non-negativity precondition is essential: on the Python int `-1` the loop
body never reaches a zero value (floor-shifting `-1` right yields `-1`
again), so the fuelled model of the loop fails to terminate for every fuel. -/
theorem c10_write_varint_total :
    (∀ v : Nat, 1 ≤ (write_varint v).length) ∧
      write_varint 0 = [0] ∧
      ∀ fuel : Nat, write_varint_int fuel (-1) = none := by
  refine ⟨?_, ?_, ?_⟩
  · intro v
    rw [write_varint]
    by_cases hz : v >>> 7 ≠ 0
    · rw [dif_pos hz]; simp
    · rw [dif_neg hz]; simp
  · rw [write_varint]; norm_num
  · intro fuel
    induction fuel with
    | zero => rfl
    | succ n ihn =>
      rw [write_varint_int]
      have hdiv : Int.ediv (-1) 128 = -1 := by decide
      rw [hdiv]
      simp [ihn]

/-! ## JSON values and a model of `json.loads` -/

/-- JSON values as Python's `json` module materialises them (numbers
restricted to integers; the prober's claims never involve floats). -/
inductive Json where
  | null
  | bool (b : Bool)
  | num (n : Int)
  | str (s : String)
  | arr (elems : List Json)
  | obj (fields : List (String × Json))

/-- JSON whitespace skipping (space, tab, newline, carriage return). -/
def skipWs : List Char → List Char
  | [] => []
  | c :: cs => if c = ' ' ∨ c = '\t' ∨ c = '\n' ∨ c = '\r' then skipWs cs else c :: cs

/-- Body of a double-quoted JSON string after the opening quote; escape
sequences are outside the modelled subset and fail. -/
def parseStringBody : List Char → Option (String × List Char)
  | [] => none
  | c :: cs =>
    if c = '"' then some ("", cs)
    else if c = '\\' then none
    else
      match parseStringBody cs with
      | some (s, r) => some (⟨c :: s.data⟩, r)
      | none => none

def digitsToNat (ds : List Char) : Nat :=
  ds.foldl (fun acc c => 10 * acc + (c.toNat - 48)) 0

/-- What a recursive-descent step is asked to produce. -/
inductive PMode where
  | value
  | members
  | elems

/-- What a recursive-descent step produced. -/
inductive PRes where
  | v (j : Json)
  | ms (l : List (String × Json))
  | es (l : List Json)

/-- Fuelled recursive-descent parser behind `parseJson`.  The fuel only
bounds nesting of recursive steps; every recursive call consumes at least one
character first, so `length + 1` fuel always suffices. -/
def parseP : Nat → PMode → List Char → Option (PRes × List Char)
  | 0, _, _ => none
  | fuel + 1, .value, cs =>
    match skipWs cs with
    | [] => none
    | c :: cs' =>
      if c = '"' then
        match parseStringBody cs' with
        | some (s, r) => some (.v (.str s), r)
        | none => none
      else if c = '{' then
        match skipWs cs' with
        | '}' :: r => some (.v (.obj []), r)
        | cs'' =>
          match parseP fuel .members cs'' with
          | some (.ms l, r) => some (.v (.obj l), r)
          | _ => none
      else if c = '[' then
        match skipWs cs' with
        | ']' :: r => some (.v (.arr []), r)
        | cs'' =>
          match parseP fuel .elems cs'' with
          | some (.es l, r) => some (.v (.arr l), r)
          | _ => none
      else if c = 't' then
        match cs' with
        | 'r' :: 'u' :: 'e' :: r => some (.v (.bool true), r)
        | _ => none
      else if c = 'f' then
        match cs' with
        | 'a' :: 'l' :: 's' :: 'e' :: r => some (.v (.bool false), r)
        | _ => none
      else if c = 'n' then
        match cs' with
        | 'u' :: 'l' :: 'l' :: r => some (.v .null, r)
        | _ => none
      else if c = '-' then
        match cs'.span (·.isDigit) with
        | ([], _) => none
        | (ds, r) => some (.v (.num (-(digitsToNat ds : Int))), r)
      else if c.isDigit then
        match (c :: cs').span (·.isDigit) with
        | (ds, r) => some (.v (.num (digitsToNat ds)), r)
      else none
  | fuel + 1, .members, cs =>
    match skipWs cs with
    | '"' :: cs' =>
      match parseStringBody cs' with
      | some (k, r1) =>
        match skipWs r1 with
        | ':' :: r2 =>
          match parseP fuel .value r2 with
          | some (.v j, r3) =>
            match skipWs r3 with
            | ',' :: r4 =>
              match parseP fuel .members r4 with
              | some (.ms l, r5) => some (.ms ((k, j) :: l), r5)
              | _ => none
            | '}' :: r4 => some (.ms [(k, j)], r4)
            | _ => none
          | _ => none
        | _ => none
      | none => none
    | _ => none
  | fuel + 1, .elems, cs =>
    match parseP fuel .value cs with
    | some (.v j, r1) =>
      match skipWs r1 with
      | ',' :: r2 =>
        match parseP fuel .elems r2 with
        | some (.es l, r3) => some (.es (j :: l), r3)
        | _ => none
      | ']' :: r2 => some (.es [j], r2)
      | _ => none
    | _ => none

/-- Model of Python's `json.loads` on the subset of JSON texts the model
covers: objects, arrays, double-quoted strings without escape sequences,
integer numerals, `true`/`false`/`null`, JSON whitespace.  Inputs outside the
subset (float literals, escapes) are modelled as parse failures.  Trailing
non-whitespace data is rejected, as `json.loads` rejects extra data. -/
def parseJson (s : String) : Option Json :=
  match parseP (s.data.length + 1) .value s.data with
  | some (.v j, rest) => if skipWs rest = [] then some j else none
  | _ => none

/-- Lookup in a parsed JSON object with Python `dict` semantics: a later
duplicate key overwrites an earlier one. -/
def dictLookup (fields : List (String × Json)) (k : String) : Option Json :=
  fields.reverse.lookup k

/-- Model of `bytes.decode()` restricted to ASCII payloads; multi-byte UTF-8
sequences are outside the modelled subset and fail. -/
def pyDecodeAscii (bs : List Nat) : Except PyErr String :=
  if bs.all (fun b => b < 128) then .ok ⟨bs.map Char.ofNat⟩ else .error .unicodeError

/-- ASCII bytes of a string, the inverse used to build concrete payloads. -/
def strBytes (s : String) : List Nat := s.data.map Char.toNat

/-! ## The prober -/

/-- The dict `ping_minecraft` returns (server.py lines 79-84).  The numeric
and version fields hold whatever JSON values the peer supplied. -/
structure StatusResult where
  online : Bool
  players_online : Json
  players_max : Json
  version : Json

/-- The canonical failure dict built by `_refresh_status` (line 89):
`{"online": False, "players_online": 0, "players_max": 0, "version": "?"}`. -/
def offlineResult : StatusResult :=
  { online := false, players_online := .num 0, players_max := .num 0, version := .str "?" }

/-- Python `x.get(k, dflt)`: defined on dicts, raising `AttributeError` on
every non-dict value. -/
def pyGet (j : Json) (k : String) (dflt : Json) : Except PyErr Json :=
  match j with
  | .obj fields => .ok ((dictLookup fields k).getD dflt)
  | _ => .error .attributeError

/-- The result-dict construction of `ping_minecraft` (lines 79-84):
`data.get("players", {}).get("online", 0)`, `data.get("players",
{}).get("max", 0)`, `data.get("version", {}).get("name", "?")`. -/
def buildStatus (data : Json) : Except PyErr StatusResult := do
  let players ← pyGet data "players" (.obj [])
  let online ← pyGet players "online" (.num 0)
  let players2 ← pyGet data "players" (.obj [])
  let maxPlayers ← pyGet players2 "max" (.num 0)
  let ver ← pyGet data "version" (.obj [])
  let name ← pyGet ver "name" (.str "?")
  return { online := true, players_online := online, players_max := maxPlayers,
           version := name }

/-- The response-processing part of `ping_minecraft` (server.py lines
76-84): two discarded varints (frame length and packet id), a varint payload
length, `stream.read` of that many bytes (which yields at most the bytes
still available before the peer closed), `bytes.decode`, `json.loads`, and
the result-dict construction.  `resp` is the byte stream the peer delivers
before closing the connection; a peer that closes immediately after
accepting delivers `[]`. -/
def ping_minecraft (resp : List Nat) : Except PyErr StatusResult := do
  let (_, s1) ← read_varint resp
  let (_, s2) ← read_varint s1
  let (n, s3) ← read_varint s2
  let raw := s3.take n
  let txt ← pyDecodeAscii raw
  match parseJson txt with
  | some data => buildStatus data
  | none => Except.error .jsonError

/-- One `try`/`except` cycle body of `_refresh_status` (lines 88-89): the
successful probe's dict, or on any exception the canonical failure dict. -/
def refresh_result (resp : List Nat) : StatusResult :=
  match ping_minecraft resp with
  | .ok r => r
  | .error _ => offlineResult

/-! ## C5: the outbound wire format -/

theorem write_varint_lt128 {v : Nat} (h : v < 128) : write_varint v = [v] := by
  rw [write_varint]
  rw [dif_neg (by simpa using shiftRight7_eq_zero_iff.mpr h)]
  rw [and_127_eq_mod, Nat.mod_eq_of_lt h]

/-- `struct.pack(">H", port)` (line 71): the two big-endian bytes of a
`uint16`.  For `port ≥ 2 ^ 16` the Python call raises `struct.error`; the
claims quantify only over `uint16` ports, where these are the exact bytes. -/
def packH (port : Nat) : List Nat := [port / 256 % 256, port % 256]

/-- The handshake payload `ping_minecraft` assembles (lines 69-71):
`_write_varint(0x00) + _write_varint(762) + _write_varint(len(addr_enc)) +
addr_enc + struct.pack(">H", port) + _write_varint(1)`.  `addrEnc` is the
UTF-8 encoding of the host string. -/
def handshake (addrEnc : List Nat) (port : Nat) : List Nat :=
  write_varint 0x00 ++ write_varint 762 ++ write_varint addrEnc.length ++ addrEnc
    ++ packH port ++ write_varint 1

/-- Everything `sock.sendall` writes in the single call on line 75:
`_write_varint(len(handshake)) + handshake` followed by
`status_req = _write_varint(1) + _write_varint(0x00)`. -/
def sentBytes (addrEnc : List Nat) (port : Nat) : List Nat :=
  (write_varint (handshake addrEnc port).length ++ handshake addrEnc port)
    ++ (write_varint 1 ++ write_varint 0x00)

/-- The wire layout exactly as the claim words it: a varint length prefix over
the handshake payload — packet id byte `0x00`, varint protocol version 762,
varint-length-prefixed host bytes, 2-byte big-endian port, varint next-state
1 — immediately followed by the status request frame `0x01 0x00`. -/
def claimSentBytes (addrEnc : List Nat) (port : Nat) : List Nat :=
  let payload := [0x00] ++ write_varint 762 ++ write_varint addrEnc.length ++ addrEnc
    ++ [port / 256, port % 256] ++ write_varint 1
  write_varint payload.length ++ payload ++ [0x01, 0x00]

/-- C5: for every host byte string and uint16 port, the bytes the prober
writes in its single send are exactly the claimed layout. -/
theorem c5_wire_format (addrEnc : List Nat) (port : Nat) (h : port < 65536) :
    sentBytes addrEnc port = claimSentBytes addrEnc port := by
  have hdiv : port / 256 % 256 = port / 256 := by
    apply Nat.mod_eq_of_lt
    omega
  have h0 : write_varint 0x00 = [0x00] := write_varint_lt128 (by norm_num)
  have h1 : write_varint 1 = [1] := write_varint_lt128 (by norm_num)
  simp only [sentBytes, claimSentBytes, handshake, packH, h0, h1, hdiv,
    List.append_assoc, List.singleton_append, List.cons_append, List.nil_append]

/-- C5 witness: the wire format at a concrete host encoding and port. -/
theorem c5_wire_format_witness :
    sentBytes (strBytes "blissfull.mc-server.net") 25816 =
      claimSentBytes (strBytes "blissfull.mc-server.net") 25816 :=
  c5_wire_format (strBytes "blissfull.mc-server.net") 25816 (by norm_num)

/-! ## C2: failing peer interactions -/

/-- C2 counterexample: with a peer that closes immediately after accepting
(empty response stream), `ping_minecraft` itself does not return the
canonical offline result — the `EOFError` raised inside `_read_varint`
escapes the prober's boundary. -/
theorem c2_counterexample :
    ping_minecraft [] = .error .eofError ∧ ping_minecraft [] ≠ .ok offlineResult :=
  ⟨rfl, fun h => Except.noConfusion h⟩

/-- C2 amended: on every failing peer interaction `ping_minecraft` signals
failure by raising; the exception is converted into the canonical offline
result one level up, by the `except` clause of the refresh loop's cycle. -/
theorem c2_refresh_absorbs (resp : List Nat) (e : PyErr)
    (h : ping_minecraft resp = .error e) : refresh_result resp = offlineResult := by
  simp only [refresh_result, h]

/-- C2 witness: the peer that closes immediately after accepting. -/
theorem c2_refresh_absorbs_witness : refresh_result [] = offlineResult :=
  c2_refresh_absorbs [] .eofError (by rfl)

/-! ## C6: successful responses -/

/-- C6 amended: for every correctly framed response (any frame-length and
packet-id varints in range, a varint payload length equal to the payload's
byte count) whose payload parses as a JSON object in which the `players` and
`version` entries — where present — are themselves objects, the probe
returns `online: true` with `players.online`, `players.max` defaulting to 0
and `version.name` defaulting to `"?"` when absent. -/
theorem c6_success_extraction (a b : Nat) (payload : List Nat) (s : String)
    (kvs pkvs vkvs : List (String × Json))
    (ha : a < 2 ^ 35) (hb : b < 2 ^ 35) (hn : payload.length < 2 ^ 35)
    (hdec : pyDecodeAscii payload = .ok s)
    (hparse : parseJson s = some (.obj kvs))
    (hp : (dictLookup kvs "players").getD (.obj []) = .obj pkvs)
    (hv : (dictLookup kvs "version").getD (.obj []) = .obj vkvs) :
    ping_minecraft
        (write_varint a ++ (write_varint b ++ (write_varint payload.length ++ payload))) =
      .ok { online := true,
            players_online := (dictLookup pkvs "online").getD (.num 0),
            players_max := (dictLookup pkvs "max").getD (.num 0),
            version := (dictLookup vkvs "name").getD (.str "?") } := by
  have h1 := read_write (v := a) (write_varint b ++ (write_varint payload.length ++ payload)) ha
  have h2 := read_write (v := b) (write_varint payload.length ++ payload) hb
  have h3 := read_write (v := payload.length) payload hn
  simp only [ping_minecraft, h1, h2, h3, bind, Except.bind, List.take_length, hdec,
    hparse, buildStatus, pyGet, hp, hv, pure, Except.pure]

/-- C6 witness: the spec's example response
`{"players":{"online":5,"max":20},"version":{"name":"1.20.1"}}`, correctly
framed, yields `{online: true, players_online: 5, players_max: 20,
version: "1.20.1"}`. -/
theorem c6_success_extraction_witness :
    ping_minecraft (write_varint 100 ++ (write_varint 0 ++
        (write_varint (strBytes "\x7b\"players\":\x7b\"online\":5,\"max\":20\x7d,\"version\":\x7b\"name\":\"1.20.1\"\x7d\x7d").length ++
          strBytes "\x7b\"players\":\x7b\"online\":5,\"max\":20\x7d,\"version\":\x7b\"name\":\"1.20.1\"\x7d\x7d"))) =
      .ok { online := true, players_online := .num 5, players_max := .num 20,
            version := .str "1.20.1" } :=
  c6_success_extraction 100 0
    (strBytes "\x7b\"players\":\x7b\"online\":5,\"max\":20\x7d,\"version\":\x7b\"name\":\"1.20.1\"\x7d\x7d")
    "\x7b\"players\":\x7b\"online\":5,\"max\":20\x7d,\"version\":\x7b\"name\":\"1.20.1\"\x7d\x7d"
    [("players", .obj [("online", .num 5), ("max", .num 20)]),
     ("version", .obj [("name", .str "1.20.1")])]
    [("online", .num 5), ("max", .num 20)]
    [("name", .str "1.20.1")]
    (by norm_num) (by norm_num) (by decide) (by rfl) (by rfl) (by rfl) (by rfl)

/-- C6 counterexample: the payload `{"players":3}` is a correctly framed JSON
object, yet the probe does not return a success dict with defaulted fields —
`data.get("players", {}).get("online", 0)` raises `AttributeError` because
the int `3` has no `.get`.  (`100` and `0` are the frame-length and packet-id
varint bytes, `13` the payload length varint byte.) -/
theorem c6_counterexample :
    parseJson "\x7b\"players\":3\x7d" = some (.obj [("players", .num 3)]) ∧
      ping_minecraft (100 :: 0 :: 13 :: strBytes "\x7b\"players\":3\x7d") =
        .error .attributeError :=
  ⟨rfl, rfl⟩

/-! ## The status cache and the refresh loop -/

/-- `_status_cache` (line 32): `data` is `None` until the first probe
completes, then always the most recent probe dict; `updated_at` is the
`time.time()` reading of the most recent write. -/
structure Cache where
  data : Option StatusResult
  updated_at : Nat

/-- The initial cache state of line 32: `{"data": None, "updated_at": 0}`. -/
def initCache : Cache := { data := none, updated_at := 0 }

/-- One iteration of `_refresh_status` (lines 88-92): probe, absorb any
exception into the canonical failure dict, and replace both cache fields
under `_status_lock`.  `now` is this cycle's `time.time()` reading.  The
previous state is overwritten wholesale. -/
def refresh_step (_c : Cache) (resp : List Nat) (now : Nat) : Cache :=
  { data := some (refresh_result resp), updated_at := now }

/-- The refresh loop run over a finite schedule of cycles; each entry pairs
the peer's response stream for that cycle with that cycle's `time.time()`
reading.  The result lists the successive cache states readers can observe
after each write. -/
def refresh_trace (c : Cache) : List (List Nat × Nat) → List Cache
  | [] => []
  | (resp, now) :: evs =>
    let c' := refresh_step c resp now
    c' :: refresh_trace c' evs

/-- The snapshot dict `get_status` serialises (lines 193-199). -/
structure FullStatus where
  online : Bool
  players_online : Json
  players_max : Json
  version : Json
  updated_at : Nat

/-- `get_status` (server.py lines 193-199): read both cache fields under the
lock; while `data is None` answer the fixed initial snapshot with
`updated_at = 0`, otherwise the cached dict together with the cache's
`updated_at`. -/
def get_status (c : Cache) : FullStatus :=
  match c.data with
  | none =>
    { online := false, players_online := .num 0, players_max := .num 0,
      version := .str "?", updated_at := 0 }
  | some d =>
    { online := d.online, players_online := d.players_online,
      players_max := d.players_max, version := d.version,
      updated_at := c.updated_at }

/-- C8: before any probe has completed — the cache still in its initial
state — `get_status` returns exactly `{online: false, players_online: 0,
players_max: 0, version: "?", updated_at: 0}`. -/
theorem c8_initial_snapshot :
    get_status initCache =
      { online := false, players_online := .num 0, players_max := .num 0,
        version := .str "?", updated_at := 0 } := rfl

/-- C7: the refresh loop completes every scheduled cycle — probe outcomes
never terminate it or escape an iteration — and every cache write stores
either the successful probe dict or the canonical failure dict. -/
theorem c7_loop_liveness :
    (∀ (c : Cache) (evs : List (List Nat × Nat)),
        (refresh_trace c evs).length = evs.length) ∧
      ∀ (c : Cache) (resp : List Nat) (now : Nat),
        (refresh_step c resp now).data = some (refresh_result resp) ∧
          (ping_minecraft resp = .ok (refresh_result resp) ∨
            refresh_result resp = offlineResult) := by
  constructor
  · intro c evs
    induction evs generalizing c with
    | nil => rfl
    | cons e evs ih =>
      obtain ⟨resp, now⟩ := e
      simp [refresh_trace, ih]
  · intro c resp now
    refine ⟨rfl, ?_⟩
    rw [refresh_result]
    cases hping : ping_minecraft resp with
    | ok r => exact Or.inl rfl
    | error e => exact Or.inr rfl

/-! ## C9: monotone timestamps -/

theorem refresh_trace_updated_at : ∀ (evs : List (List Nat × Nat)) (c : Cache),
    (refresh_trace c evs).map Cache.updated_at = evs.map Prod.snd := by
  intro evs
  induction evs with
  | nil => intro c; rfl
  | cons e evs ih =>
    intro c
    obtain ⟨resp, now⟩ := e
    simp [refresh_trace, refresh_step, ih]

theorem refresh_trace_data_some : ∀ (evs : List (List Nat × Nat)) (c : Cache)
    (x : Cache), x ∈ refresh_trace c evs → ∃ r, x.data = some r := by
  intro evs
  induction evs with
  | nil => intro c x hx; simp [refresh_trace] at hx
  | cons e evs ih =>
    intro c x hx
    obtain ⟨resp, now⟩ := e
    rw [refresh_trace] at hx
    rcases List.mem_cons.mp hx with h | h
    · exact ⟨refresh_result resp, by subst h; rfl⟩
    · exact ih _ x h

/-- C9: across any run of the refresh loop whose successive `time.time()`
readings are non-decreasing, the `updated_at` fields of the successive
`get_status` snapshots — the pre-first-probe snapshot included — are
non-decreasing: no snapshot ever carries an `updated_at` smaller than an
earlier snapshot's. -/
theorem c9_updated_at_monotone (evs : List (List Nat × Nat))
    (hclock : List.Chain' (· ≤ ·) (evs.map Prod.snd)) :
    List.Chain' (· ≤ ·)
      ((initCache :: refresh_trace initCache evs).map
        (fun c => (get_status c).updated_at)) := by
  have hmap : (refresh_trace initCache evs).map (fun c => (get_status c).updated_at) =
      (refresh_trace initCache evs).map Cache.updated_at := by
    apply List.map_congr_left
    intro x hx
    obtain ⟨r, hr⟩ := refresh_trace_data_some evs initCache x hx
    simp [get_status, hr]
  rw [List.map_cons, hmap, refresh_trace_updated_at]
  rw [List.chain'_cons']
  exact ⟨fun b _ => Nat.zero_le b, hclock⟩

/-- C9 witness: a concrete two-cycle run with non-decreasing clock readings. -/
theorem c9_updated_at_monotone_witness :
    List.Chain' (· ≤ ·)
      ((initCache :: refresh_trace initCache [([], 5), ([], 7)]).map
        (fun c => (get_status c).updated_at)) :=
  c9_updated_at_monotone [([], 5), ([], 7)] (by simp)
